import Mathlib

/-!
Shallow embedding of glow's low-level IR layer:
`src/glow/IR/IRBuilder.cpp` (high-level operator constructors and
low-level instruction constructors) and the instruction `verify()`
implementations (Instrs.cpp).

Machine integers (`size_t`, `unsigned`) are modelled as `Nat`; the only
subtraction (`extent + 2*pad - kernel`) is guarded in the source by the
assertion `extent >= kernel`, so `Nat` truncated subtraction agrees with
`size_t` arithmetic on every reachable input.  `float` attribute values
(`0.1`, `0.0`, `1.0`, fan-in counts) are only stored, never computed
with, so they are modelled as `Rat`.  A C++ `assert` failure (a fatal
abort of graph construction) is modelled as `Option.none`; `verify()`
is modelled as a `Bool`-valued function that is `false` exactly when one
of its assertions would fire.
-/

namespace Glow

/-- Element kinds of tensors (`ElemKind`): a floating-point kind and an
index kind used for integer coordinate caches. -/
inductive ElemKind where
  | FloatTy
  | IndexTy
deriving DecidableEq, Repr

/-- A tensor type (`Type`): an element kind plus an ordered shape.
Structural equality of `Ty` corresponds to pointer equality of interned
`TypeRef`s in the source (the interning invariant); the interning map
itself is modelled separately by `uniqueType` below. -/
structure Ty where
  elemKind : ElemKind
  dims : List Nat
deriving DecidableEq, Repr

/-- Modelled from the spec: `Type::size()` is missing from the sources;
the spec defines the total element count as the product of the extents. -/
def Ty.size (t : Ty) : Nat := t.dims.prod

/-- A value reference as seen by an instruction operand: the source's
`Value*` is used by `verify()` only through `getType()`, modelled here
by the (interned, hence structurally compared) type. -/
structure Value where
  ty : Ty
deriving DecidableEq, Repr

/-- `Value::dims()` / `Type::dims()`. -/
def Value.dims (v : Value) : List Nat := v.ty.dims

/-- `Value::getElementType()`. -/
def Value.getElementType (v : Value) : ElemKind := v.ty.elemKind

/-- Initialization policies of a static variable (`InitKind`):
`Ext` renders the source's `kExtern`, `Broadcast` its `kBroadcast`,
`Xavier` its `kXavier`. -/
inductive InitKind where
  | Ext
  | Broadcast
  | Xavier
deriving DecidableEq, Repr

/-- Sharing classes (`ShareKind`): `Weight` renders `kWeight`,
`Activation` renders `kActivation`. -/
inductive ShareKind where
  | Weight
  | Activation
deriving DecidableEq, Repr

/-- A buffer declaration (`StaticVariable`): an interned type, an
initialization policy with its scalar payload, a sharing class and a
display name.  Modelled from the spec: the class body is missing from
the sources; a freshly constructed variable has no name until
`setName` is called, modelled by `name = none`. -/
structure StaticVariable where
  ty : Ty
  initKind : InitKind
  shareKind : ShareKind
  val : Rat
  name : Option String
deriving DecidableEq, Repr

/-- The `Value` an instruction operand sees for a declared buffer. -/
def StaticVariable.toVal (v : StaticVariable) : Value := ⟨v.ty⟩

/-- `PoolInst::OpKind`: `Max` renders `kMax`, `Avg` renders `kAvg`. -/
inductive PoolOpKind where
  | Max
  | Avg
deriving DecidableEq, Repr

/-- `ArithmeticInst::OpKind`: `Add` renders `kAdd`, `Mul` renders `kMul`. -/
inductive ArithOpKind where
  | Add
  | Mul
deriving DecidableEq, Repr

/-- The instruction set.  Each constructor records the operands in the
order the C++ constructor stores them (operand 0 is the output),
followed by the operator attributes. -/
inductive Instruction where
  | copy (dest src : Value)
  | convolution (dest src filter bias : Value)
      (kernel stride pad depth : Nat)
  | pool (dest src srcXY : Value) (kind : PoolOpKind)
      (kernel stride pad : Nat)
  | fullyConnected (dest src filter bias : Value) (depth : Nat)
  | relu (dest src : Value)
  | sigmoid (dest src : Value)
  | tanh (dest src : Value)
  | softMax (dest src e selected : Value)
  | regression (dest src expected : Value)
  | reshape (dest src : Value) (dims : List Nat)
  | transpose (dest src : Value) (shuffle : List Nat)
  | concat (dest : Value) (src : List Value) (dim : Nat)
  | batchNormalization (dest src scale bias mean var : Value)
      (channelIdx : Nat) (epsilon momentum : Rat)
  | arithmetic (dest lhs rhs : Value) (kind : ArithOpKind)
deriving DecidableEq, Repr

/-- `ShapeNHWC`: a rank-4 shape viewed as batch/height/width/channels. -/
structure ShapeNHWC where
  n : Nat
  h : Nat
  w : Nat
  c : Nat
deriving DecidableEq, Repr

/-- Construction of a `ShapeNHWC` from a dimension list; the source's
constructor asserts the rank is exactly 4, so any other rank is a
fatal abort, modelled by `none`. -/
def shapeNHWC : List Nat → Option ShapeNHWC
  | [n, h, w, c] => some ⟨n, h, w, c⟩
  | _ => none

/-- Modelled from the spec: `ConvNode::calculateOutputDims` is missing
from the sources; the spec defines the output spatial extent per axis as
`⌊(extent + 2·pad − kernel) / stride⌋ + 1`.  Callers assert
`extent ≥ kernel` first, so the truncated subtraction never differs
from the source's `size_t` arithmetic on reachable inputs. -/
def calculateOutputDims (h w pad kernel stride : Nat) : Nat × Nat :=
  ((h + 2 * pad - kernel) / stride + 1, (w + 2 * pad - kernel) / stride + 1)

/-- Modelled from the spec: `flattenCdr` is missing from the sources;
the spec defines shape flattening as collapsing all non-leading
dimensions into one feature dimension while preserving the leading
(batch) dimension.  The source asserts the shape is non-empty; callers
of this model carry that as a hypothesis. -/
def flattenCdr : List Nat → Nat × Nat
  | [] => (0, 1)
  | n :: rest => (n, rest.prod)

/-- Look up `dims[j]` for every `j` in the index list; `none` if any
index is out of range (the `ArrayRef` bounds assertion). -/
def lookupAll (dims : List Nat) : List Nat → Option (List Nat)
  | [] => some []
  | j :: js =>
    match dims[j]?, lookupAll dims js with
    | some d, some rest => some (d :: rest)
    | _, _ => none

/-- The shape-shuffling loop shared by `createTransposeOp` and
`TransposeInst::verify`: `shape[i] = dims[shuffle[i]]` for every
`i < dims.size()`.  Reading `shuffle[i]` or `dims[shuffle[i]]` out of
range is a fatal `ArrayRef` bounds assertion, modelled by `none`. -/
def shuffleDims (dims shuffle : List Nat) : Option (List Nat) :=
  if shuffle.length < dims.length then none
  else lookupAll dims (shuffle.take dims.length)

/-- `shape[dimension] *= n` on a shape vector (in-range by the caller's
guard). -/
def mulAt : List Nat → Nat → Nat → List Nat
  | [], _, _ => []
  | x :: xs, 0, n => (x * n) :: xs
  | x :: xs, k + 1, n => x :: mulAt xs k n

/-- Operand 0 of an instruction: by convention the instruction's
output (`getOperand(0)`). -/
def Instruction.dest : Instruction → Value
  | .copy d _ => d
  | .convolution d _ _ _ _ _ _ _ => d
  | .pool d _ _ _ _ _ _ => d
  | .fullyConnected d _ _ _ _ => d
  | .relu d _ => d
  | .sigmoid d _ => d
  | .tanh d _ => d
  | .softMax d _ _ _ => d
  | .regression d _ _ => d
  | .reshape d _ _ => d
  | .transpose d _ _ => d
  | .concat d _ _ => d
  | .batchNormalization d _ _ _ _ _ _ _ _ => d
  | .arithmetic d _ _ _ => d

/-- `checkSameType`: the source compares the two operands' interned
`TypeRef` pointers, which by the interning invariant is structural
equality of the types. -/
def checkSameType (a b : Value) : Bool := a.ty = b.ty

/-- Per-instruction `verify()`: `true` exactly when none of the
source's assertions fires. -/
def Instruction.verify : Instruction → Bool
  | .copy dest src => checkSameType dest src
  | .convolution dest src filter bias kernel stride pad depth =>
    match shapeNHWC src.dims, shapeNHWC dest.dims with
    | some idim, some odim =>
      decide (kernel ≤ idim.w) && decide (kernel ≤ idim.h) &&
      (let outSz := calculateOutputDims idim.h idim.w pad kernel stride
       decide ((⟨idim.n, outSz.1, outSz.2, depth⟩ : ShapeNHWC) = odim) &&
       decide (filter.dims = [depth, kernel, kernel, idim.c]) &&
       decide (bias.dims = [depth]))
    | _, _ => false
  | .pool dest src srcXY kind kernel stride pad =>
    match shapeNHWC src.dims, shapeNHWC dest.dims with
    | some idim, some odim =>
      decide (kernel ≤ idim.w) && decide (kernel ≤ idim.h) &&
      (let outSz := calculateOutputDims idim.h idim.w pad kernel stride
       decide ((⟨idim.n, outSz.1, outSz.2, idim.c⟩ : ShapeNHWC) = odim) &&
       (match kind with
        | .Max =>
          decide (srcXY.dims = [idim.n, outSz.1, outSz.2, idim.c, 2])
        | .Avg => true))
    | _, _ => false
  | .fullyConnected dest src w b depth =>
    match src.dims with
    | [] => false
    | _ :: _ =>
      let idim := flattenCdr src.dims
      decide (dest.dims = [idim.1, depth]) &&
      decide (w.dims = [depth, idim.2]) &&
      decide (b.dims = [depth])
  | .relu dest src => checkSameType dest src
  | .sigmoid dest src => checkSameType dest src
  | .tanh dest src => checkSameType dest src
  | .softMax dest src _ _ => checkSameType dest src
  | .regression dest src _ => checkSameType dest src
  | .reshape dest src _ => decide (dest.ty.size = src.ty.size)
  | .transpose dest src shuffle =>
    match shuffleDims src.dims shuffle with
    | some shape => decide (dest.dims = shape)
    | none => false
  | .concat dest srcs dim =>
    match srcs with
    | [] => false
    | s0 :: rest =>
      rest.all (fun v => decide (v.dims = s0.dims)) &&
      decide (dim < s0.dims.length) &&
      decide (dest.dims = mulAt s0.dims dim srcs.length)
  | .batchNormalization dest src scale bias mean var channelIdx _ _ =>
    checkSameType dest src &&
    (match dest.dims[channelIdx]? with
     | some channels =>
       decide (scale.dims = [channels]) &&
       decide (bias.dims = [channels]) &&
       decide (mean.dims = [channels]) &&
       decide (var.dims = [channels])
     | none => false)
  | .arithmetic dest lhs rhs _ =>
    checkSameType dest lhs && checkSameType dest rhs

/-! ## The builder (`IRBuilder`)

The builder's module state: the declared buffers and the instruction
list, both in push order.  The type-interning pool (`Module::uniqueType`)
is modelled separately below, since here types are compared
structurally, which the interning invariant makes equivalent. -/

structure BuilderState where
  vars : List StaticVariable
  instrs : List Instruction
deriving DecidableEq, Repr

def BuilderState.pushVar (s : BuilderState) (v : StaticVariable) :
    BuilderState :=
  { s with vars := s.vars ++ [v] }

def BuilderState.pushInstr (s : BuilderState) (i : Instruction) :
    BuilderState :=
  { s with instrs := s.instrs ++ [i] }

/-- `IRBuilder::createStaticVariable(ElemKind, dims, name, initKind,
shareKind, val)`: interns the type, constructs the variable, pushes it
into the module, then calls `setName(name)` on it — so the variable the
module holds carries the name. -/
def createStaticVariable (s : BuilderState) (elemTy : ElemKind)
    (dims : List Nat) (nm : String) (initKind : InitKind)
    (shareKind : ShareKind) (val : Rat) :
    StaticVariable × BuilderState :=
  let A : StaticVariable :=
    { ty := ⟨elemTy, dims⟩, initKind := initKind, shareKind := shareKind,
      val := val, name := some nm }
  (A, s.pushVar A)

/-- `IRBuilder::createStaticVariable(TypeRef, name, initKind, shareKind,
val)`: constructs the variable and pushes it, but — unlike the
element-kind/dims overload — never calls `setName`, so the supplied
name is discarded. -/
def createStaticVariableT (s : BuilderState) (T : Ty) (nm : String)
    (initKind : InitKind) (shareKind : ShareKind) (val : Rat) :
    StaticVariable × BuilderState :=
  let _ := nm
  let A : StaticVariable :=
    { ty := T, initKind := initKind, shareKind := shareKind,
      val := val, name := none }
  (A, s.pushVar A)

/-- Modelled from the spec: the declared default arguments of
`createStaticVariable` live in the missing header.  Per the spec, a
buffer allocated with the defaults is an `Activation` buffer with
`Extern` initialization (caller-supplied contents) — used below for
output buffers and for the batch-normalization `mean`/`variance`
buffers — with name `""` and payload `0`. -/
def createStaticVariableD (s : BuilderState) (elemTy : ElemKind)
    (dims : List Nat) (nm : String := "") :
    StaticVariable × BuilderState :=
  createStaticVariable s elemTy dims nm InitKind.Ext ShareKind.Activation 0

/-- The `TypeRef` overload called with all-default trailing arguments. -/
def createStaticVariableTD (s : BuilderState) (T : Ty)
    (nm : String := "") : StaticVariable × BuilderState :=
  createStaticVariableT s T nm InitKind.Ext ShareKind.Activation 0

/-! ### Low-level instruction constructors

Each allocates the instruction and appends it to the module; none of
them checks anything. -/

def createCopyInst (s : BuilderState) (dest src : Value) :
    Instruction × BuilderState :=
  let A := Instruction.copy dest src
  (A, s.pushInstr A)

def createConvolutionInst (s : BuilderState) (dest src filter bias : Value)
    (kernel stride pad depth : Nat) : Instruction × BuilderState :=
  let A := Instruction.convolution dest src filter bias kernel stride pad depth
  (A, s.pushInstr A)

def createPoolInst (s : BuilderState) (dest src srcXY : Value)
    (kind : PoolOpKind) (kernel stride pad : Nat) :
    Instruction × BuilderState :=
  let A := Instruction.pool dest src srcXY kind kernel stride pad
  (A, s.pushInstr A)

def createFullyConnectedInst (s : BuilderState) (dest src filter bias : Value)
    (depth : Nat) : Instruction × BuilderState :=
  let A := Instruction.fullyConnected dest src filter bias depth
  (A, s.pushInstr A)

def createReluInst (s : BuilderState) (dest src : Value) :
    Instruction × BuilderState :=
  let A := Instruction.relu dest src
  (A, s.pushInstr A)

def createSigmoidInst (s : BuilderState) (dest src : Value) :
    Instruction × BuilderState :=
  let A := Instruction.sigmoid dest src
  (A, s.pushInstr A)

def createTanhInst (s : BuilderState) (dest src : Value) :
    Instruction × BuilderState :=
  let A := Instruction.tanh dest src
  (A, s.pushInstr A)

def createSoftMaxInst (s : BuilderState) (dest src e selected : Value) :
    Instruction × BuilderState :=
  let A := Instruction.softMax dest src e selected
  (A, s.pushInstr A)

def createRegressionInst (s : BuilderState) (dest src expected : Value) :
    Instruction × BuilderState :=
  let A := Instruction.regression dest src expected
  (A, s.pushInstr A)

def createReshapeInst (s : BuilderState) (dest src : Value)
    (shape : List Nat) : Instruction × BuilderState :=
  let A := Instruction.reshape dest src shape
  (A, s.pushInstr A)

def createTransposeInst (s : BuilderState) (dest src : Value)
    (shuffle : List Nat) : Instruction × BuilderState :=
  let A := Instruction.transpose dest src shuffle
  (A, s.pushInstr A)

def createConcatInst (s : BuilderState) (dest : Value) (src : List Value)
    (dim : Nat) : Instruction × BuilderState :=
  let A := Instruction.concat dest src dim
  (A, s.pushInstr A)

def createBatchNormalizationInst (s : BuilderState)
    (dest src scale bias mean var : Value) (channelIdx : Nat)
    (epsilon momentum : Rat) : Instruction × BuilderState :=
  let A := Instruction.batchNormalization dest src scale bias mean var
    channelIdx epsilon momentum
  (A, s.pushInstr A)

def createArithmeticInst (s : BuilderState) (dest lhs rhs : Value)
    (kind : ArithOpKind) : Instruction × BuilderState :=
  let A := Instruction.arithmetic dest lhs rhs kind
  (A, s.pushInstr A)

/-! ### High-level operator constructors

`none` models a fatal abort of graph construction (a failing `assert`,
a rank-4 view of a non-rank-4 shape, or an out-of-range `ArrayRef`
index). -/

/-- `IRBuilder::createConvOp`. -/
def createConvOp (s : BuilderState) (input : Value)
    (depth kernel stride pad : Nat) :
    Option (Instruction × BuilderState) :=
  match shapeNHWC input.dims with
  | none => none
  | some idim =>
    if kernel ≤ idim.w ∧ kernel ≤ idim.h then
      let outSz := calculateOutputDims idim.h idim.w pad kernel stride
      let outDims := [idim.n, outSz.1, outSz.2, depth]
      let filterDim := [depth, kernel, kernel, idim.c]
      let fanIn := kernel * kernel * idim.c
      let (filter, s) := createStaticVariable s ElemKind.FloatTy filterDim
        "filter" InitKind.Xavier ShareKind.Weight fanIn
      let (bias, s) := createStaticVariable s ElemKind.FloatTy [depth]
        "bias" InitKind.Broadcast ShareKind.Weight (1 / 10)
      let (dest, s) := createStaticVariableD s ElemKind.FloatTy outDims
      some (createConvolutionInst s dest.toVal input filter.toVal bias.toVal
        kernel stride pad depth)
    else none

/-- `IRBuilder::createPoolOp`. -/
def createPoolOp (s : BuilderState) (input : Value) (kind : PoolOpKind)
    (kernel stride pad : Nat) : Option (Instruction × BuilderState) :=
  match shapeNHWC input.dims with
  | none => none
  | some idim =>
    if kernel ≤ idim.w ∧ kernel ≤ idim.h then
      let outSz := calculateOutputDims idim.h idim.w pad kernel stride
      let (srcXY, s) :=
        match kind with
        | .Max => createStaticVariableD s ElemKind.IndexTy
            [idim.n, outSz.1, outSz.2, idim.c, 2] "srcXY"
        | .Avg => createStaticVariableD s ElemKind.IndexTy [] "srcXY"
      let (dest, s) := createStaticVariableD s ElemKind.FloatTy
        [idim.n, outSz.1, outSz.2, idim.c]
      some (createPoolInst s dest.toVal input srcXY.toVal kind kernel
        stride pad)
    else none

/-- `IRBuilder::createFullyConnectedOp`. -/
def createFullyConnectedOp (s : BuilderState) (input : Value)
    (outDepth : Nat) : Option (Instruction × BuilderState) :=
  match input.dims with
  | [] => none
  | _ :: _ =>
    let T := input.ty
    let idim := flattenCdr input.dims
    let fanIn : Rat := idim.2
    let (w, s) := createStaticVariable s T.elemKind [outDepth, idim.2]
      "weights" InitKind.Xavier ShareKind.Weight fanIn
    let (b, s) := createStaticVariable s T.elemKind [outDepth]
      "bias" InitKind.Broadcast ShareKind.Weight (1 / 10)
    let (dest, s) := createStaticVariableD s T.elemKind [idim.1, outDepth]
    some (createFullyConnectedInst s dest.toVal input w.toVal b.toVal
      outDepth)

/-- `IRBuilder::createRELUOp`. -/
def createRELUOp (s : BuilderState) (input : Value) :
    Instruction × BuilderState :=
  let (res, s) := createStaticVariableTD s input.ty
  createReluInst s res.toVal input

/-- `IRBuilder::createSigmoidOp`. -/
def createSigmoidOp (s : BuilderState) (input : Value) :
    Instruction × BuilderState :=
  let (res, s) := createStaticVariableTD s input.ty
  createSigmoidInst s res.toVal input

/-- `IRBuilder::createTanhOp`. -/
def createTanhOp (s : BuilderState) (input : Value) :
    Instruction × BuilderState :=
  let (res, s) := createStaticVariableTD s input.ty
  createTanhInst s res.toVal input

/-- `IRBuilder::createSoftMaxOp`: the internal "expected" buffer is
created through the `TypeRef` overload, which drops the name. -/
def createSoftMaxOp (s : BuilderState) (input selected : Value) :
    Instruction × BuilderState :=
  let (res, s) := createStaticVariableTD s input.ty
  let (e, s) := createStaticVariableTD s input.ty "expected"
  createSoftMaxInst s res.toVal input e.toVal selected

/-- `IRBuilder::createRegressionOp`. -/
def createRegressionOp (s : BuilderState) (input expected : Value) :
    Instruction × BuilderState :=
  let (res, s) := createStaticVariableTD s input.ty
  createRegressionInst s res.toVal input expected

/-- `IRBuilder::createReshapeOp`: performs no element-count check. -/
def createReshapeOp (s : BuilderState) (input : Value)
    (shape : List Nat) : Instruction × BuilderState :=
  let (res, s) := createStaticVariableD s input.getElementType shape
  createReshapeInst s res.toVal input shape

/-- `IRBuilder::createTransposeOp`. -/
def createTransposeOp (s : BuilderState) (input : Value)
    (shuffle : List Nat) : Option (Instruction × BuilderState) :=
  match shuffleDims input.dims shuffle with
  | none => none
  | some shape =>
    let (res, s) := createStaticVariableD s input.getElementType shape
    some (createTransposeInst s res.toVal input shuffle)

/-- `IRBuilder::createConcatOp`. -/
def createConcatOp (s : BuilderState) (inputs : List Value)
    (dimension : Nat) : Option (Instruction × BuilderState) :=
  match inputs with
  | [] => none
  | i0 :: rest =>
    if (∀ v ∈ rest, v.dims = i0.dims) ∧ dimension < i0.dims.length then
      let shape := mulAt i0.dims dimension inputs.length
      let (res, s) := createStaticVariableD s i0.getElementType shape
      some (createConcatInst s res.toVal inputs dimension)
    else none

/-- `IRBuilder::createBatchNormalizationOp`. -/
def createBatchNormalizationOp (s : BuilderState) (input : Value)
    (channelIdx : Nat) (epsilon momentum : Rat) :
    Option (Instruction × BuilderState) :=
  match input.dims[channelIdx]? with
  | none => none
  | some channels =>
    let (beta, s) := createStaticVariable s ElemKind.FloatTy [channels]
      "beta" InitKind.Broadcast ShareKind.Weight 0
    let (gamma, s) := createStaticVariable s ElemKind.FloatTy [channels]
      "gamma" InitKind.Broadcast ShareKind.Weight 1
    let (mean, s) := createStaticVariableD s ElemKind.FloatTy [channels]
      "mean"
    let (variance, s) := createStaticVariableD s ElemKind.FloatTy [channels]
      "variance"
    let (dest, s) := createStaticVariableTD s input.ty
    some (createBatchNormalizationInst s dest.toVal input gamma.toVal
      beta.toVal mean.toVal variance.toVal channelIdx epsilon momentum)

/-- `IRBuilder::createArithmeticOp`. -/
def createArithmeticOp (s : BuilderState) (lhs rhs : Value)
    (op : ArithOpKind) : Option (Instruction × BuilderState) :=
  if lhs.dims = rhs.dims then
    let (res, s) := createStaticVariableTD s lhs.ty
    some (createArithmeticInst s res.toVal lhs rhs op)
  else none

/-- A call to one of the thirteen high-level operator constructors. -/
inductive OpCall where
  | conv (input : Value) (depth kernel stride pad : Nat)
  | pool (input : Value) (kind : PoolOpKind) (kernel stride pad : Nat)
  | fullyConnected (input : Value) (outDepth : Nat)
  | relu (input : Value)
  | sigmoid (input : Value)
  | tanh (input : Value)
  | softMax (input selected : Value)
  | regression (input expected : Value)
  | reshape (input : Value) (shape : List Nat)
  | transpose (input : Value) (shuffle : List Nat)
  | concat (inputs : List Value) (dimension : Nat)
  | batchNormalization (input : Value) (channelIdx : Nat)
      (epsilon momentum : Rat)
  | arithmetic (lhs rhs : Value) (op : ArithOpKind)
deriving Repr

/-- Dispatch a high-level builder call; `none` is a fatal construction
abort, `some (i, sʹ)` the emitted instruction and the updated module. -/
def runOp (s : BuilderState) : OpCall → Option (Instruction × BuilderState)
  | .conv input depth kernel stride pad =>
    createConvOp s input depth kernel stride pad
  | .pool input kind kernel stride pad =>
    createPoolOp s input kind kernel stride pad
  | .fullyConnected input outDepth => createFullyConnectedOp s input outDepth
  | .relu input => some (createRELUOp s input)
  | .sigmoid input => some (createSigmoidOp s input)
  | .tanh input => some (createTanhOp s input)
  | .softMax input selected => some (createSoftMaxOp s input selected)
  | .regression input expected => some (createRegressionOp s input expected)
  | .reshape input shape => some (createReshapeOp s input shape)
  | .transpose input shuffle => createTransposeOp s input shuffle
  | .concat inputs dimension => createConcatOp s inputs dimension
  | .batchNormalization input channelIdx epsilon momentum =>
    createBatchNormalizationOp s input channelIdx epsilon momentum
  | .arithmetic lhs rhs op => createArithmeticOp s lhs rhs op

/-! ## Type interning (`Module::uniqueType`)

Modelled from the spec: the body of `Module::uniqueType` is missing
from the sources (only its caller `createStaticVariable` is shown).
The spec's contract: `intern(elementKind, shape) -> Type`, where
repeated calls with structurally equal arguments return the same Type
identity.  The pool is the module's list of interned types; a
`TypeRef` (pointer identity) is an index into the pool, which only
ever grows by appending, so an index denotes the same type object
forever. -/

/-- Intern `⟨k, dims⟩` into the pool: return the index of an existing
structurally equal entry, or append a fresh entry. -/
def uniqueType (pool : List Ty) (k : ElemKind) (dims : List Nat) :
    Nat × List Ty :=
  match pool.findIdx? (fun t => t = (⟨k, dims⟩ : Ty)) with
  | some i => (i, pool)
  | none => (pool.length, pool ++ [⟨k, dims⟩])

/-- Run a sequence of buffer declarations through the interner,
starting from pool `pool`, returning the `TypeRef` assigned to each
declaration and the final pool.  This is the type-level trace of a
sequence of `createStaticVariable` calls. -/
def internAll (reqs : List (ElemKind × List Nat)) (pool : List Ty) :
    List Nat × List Ty :=
  match reqs with
  | [] => ([], pool)
  | r :: rs =>
    ((uniqueType pool r.1 r.2).1 :: (internAll rs (uniqueType pool r.1 r.2).2).1,
     (internAll rs (uniqueType pool r.1 r.2).2).2)

/-- The side condition under which construction and verification agree
(the amendment to C1 that the code forces): Reshape additionally needs
the requested shape to preserve the input's element count (the builder
never checks it), and Arithmetic needs its two operands to share an
element kind (the builder compares only their shapes, while
verification compares whole types).  Every other operator needs
nothing beyond its constructor's own preconditions. -/
def extraOk : OpCall → Bool
  | .reshape input shape => decide (shape.prod = input.ty.dims.prod)
  | .arithmetic lhs rhs _ => decide (lhs.ty.elemKind = rhs.ty.elemKind)
  | _ => true

/-- A concrete interning trace: two structurally equal requests
(positions 0 and 2) and a request with a different shape (position 3). -/
def exampleReqs : List (ElemKind × List Nat) :=
  [(ElemKind.FloatTy, [2]), (ElemKind.IndexTy, [2]),
   (ElemKind.FloatTy, [2]), (ElemKind.FloatTy, [3])]

/-! ## Helper lemmas -/

theorem findIdx?_some_sat {α : Type} (p : α → Bool) (l : List α) (i : Nat)
    (h : l.findIdx? p = some i) : ∃ x, l[i]? = some x ∧ p x = true := by
  induction l generalizing i with
  | nil => simp [List.findIdx?] at h
  | cons a t ih =>
    rw [List.findIdx?_cons] at h
    by_cases hp : p a
    · simp [hp] at h
      subst h
      exact ⟨a, by simp, hp⟩
    · simp [hp] at h
      cases h0 : t.findIdx? p with
      | none => rw [h0] at h; simp at h
      | some j =>
        rw [h0] at h
        simp at h
        obtain ⟨x, hx, hpx⟩ := ih j h0
        subst h
        exact ⟨x, by simpa using hx, hpx⟩

theorem findIdx?_none_not_sat {α : Type} (p : α → Bool) (l : List α)
    (h : l.findIdx? p = none) : ∀ x ∈ l, p x = false := by
  intro x hx
  rw [List.findIdx?_eq_none_iff] at h
  simpa using h x hx

theorem findIdx?_first_hit {α : Type} (p : α → Bool) (l : List α) (i : Nat)
    (x : α) (hget : l[i]? = some x) (hp : p x = true)
    (hbefore : ∀ j y, j < i → l[j]? = some y → p y = false) :
    l.findIdx? p = some i := by
  induction l generalizing i with
  | nil => simp at hget
  | cons a t ih =>
    rw [List.findIdx?_cons]
    cases i with
    | zero =>
      simp at hget
      subst hget
      simp [hp]
    | succ n =>
      have ha : p a = false := hbefore 0 a (Nat.succ_pos n) (by simp)
      simp at hget
      have h2 := ih n hget fun j y hj hy =>
        hbefore (j + 1) y (Nat.succ_lt_succ hj) (by simpa using hy)
      simp [ha, h2]

theorem shapeNHWC_cons4 (a b c d : Nat) :
    shapeNHWC [a, b, c, d] = some ⟨a, b, c, d⟩ := rfl

theorem getElem?_some_lt {α : Type} (l : List α) (i : Nat) (x : α)
    (h : l[i]? = some x) : i < l.length := by
  by_contra hc
  rw [List.getElem?_eq_none (by omega)] at h
  exact Option.noConfusion h

theorem getElem?_append_stable {α : Type} (l tl : List α) (i : Nat) (x : α)
    (h : l[i]? = some x) : (l ++ tl)[i]? = some x := by
  rw [List.getElem?_append]
  simp [getElem?_some_lt l i x h, h]

/-! ### Properties of `uniqueType` -/

theorem uniqueType_grows (pool : List Ty) (k : ElemKind) (dims : List Nat) :
    ∃ tl, (uniqueType pool k dims).2 = pool ++ tl := by
  unfold uniqueType
  cases h : pool.findIdx? (fun t => t = (⟨k, dims⟩ : Ty)) with
  | none => exact ⟨[⟨k, dims⟩], rfl⟩
  | some i => exact ⟨[], by simp⟩

theorem uniqueType_hit (pool : List Ty) (k : ElemKind) (dims : List Nat) :
    ((uniqueType pool k dims).2)[(uniqueType pool k dims).1]? =
      some ⟨k, dims⟩ := by
  unfold uniqueType
  cases h : pool.findIdx? (fun t => t = (⟨k, dims⟩ : Ty)) with
  | none => simp
  | some i =>
    obtain ⟨x, hx, hpx⟩ := findIdx?_some_sat _ pool i h
    simp at hpx
    simpa [hpx] using hx

theorem uniqueType_nodup (pool : List Ty) (k : ElemKind) (dims : List Nat)
    (h : pool.Nodup) : (uniqueType pool k dims).2.Nodup := by
  unfold uniqueType
  cases hf : pool.findIdx? (fun t => t = (⟨k, dims⟩ : Ty)) with
  | none =>
    have hnm : (⟨k, dims⟩ : Ty) ∉ pool := by
      intro hmem
      have := findIdx?_none_not_sat _ pool hf _ hmem
      simp at this
    simp [List.nodup_append, h, hnm]
  | some i => simpa using h

/-- The invariant of a run of the interner: the pool stays
duplicate-free, only grows by appending, and every request is assigned
an index at which the final pool holds exactly the requested type. -/
theorem internAll_spec (reqs : List (ElemKind × List Nat)) (pool : List Ty)
    (h : pool.Nodup) :
    (internAll reqs pool).2.Nodup ∧
    (∃ tl, (internAll reqs pool).2 = pool ++ tl) ∧
    ∀ (a : Nat) (r : ElemKind × List Nat), reqs[a]? = some r →
      ∃ i, (internAll reqs pool).1[a]? = some i ∧
        (internAll reqs pool).2[i]? = some (Ty.mk r.1 r.2) := by
  induction reqs generalizing pool with
  | nil => exact ⟨h, ⟨[], by simp [internAll]⟩, by intro a r hr; simp at hr⟩
  | cons r rs ih =>
    obtain ⟨hn2, ⟨tl2, htl2⟩, hidx⟩ :=
      ih (uniqueType pool r.1 r.2).2 (uniqueType_nodup pool r.1 r.2 h)
    obtain ⟨tl1, htl1⟩ := uniqueType_grows pool r.1 r.2
    refine ⟨by simpa [internAll] using hn2,
      ⟨tl1 ++ tl2, by
        simp only [internAll]
        rw [htl2, htl1, List.append_assoc]⟩, ?_⟩
    intro a rq hr
    cases a with
    | zero =>
      simp at hr
      subst hr
      refine ⟨(uniqueType pool r.1 r.2).1, by simp [internAll], ?_⟩
      simp only [internAll]
      rw [htl2]
      exact getElem?_append_stable _ _ _ _ (uniqueType_hit pool r.1 r.2)
    | succ n =>
      simp at hr
      obtain ⟨i, hi1, hi2⟩ := hidx n rq hr
      exact ⟨i, by simpa [internAll] using hi1, by simpa [internAll] using hi2⟩

/-! ## Claim theorems -/

/-- C3: type interning is canonical.  In any sequence of buffer-type
requests run through the interner from an empty pool, two requests with
identical element kind and structurally identical shape are assigned
the identical `TypeRef` (pool index, i.e. object identity), and two
requests whose shapes differ are always assigned different `TypeRef`s;
in particular repeated intern calls with structurally equal arguments
return the same Type identity. -/
theorem C3_type_interning_canonical (reqs : List (ElemKind × List Nat))
    (a b : Nat) (ra rb : ElemKind × List Nat)
    (hra : reqs[a]? = some ra) (hrb : reqs[b]? = some rb) :
    (ra = rb → (internAll reqs []).1[a]? = (internAll reqs []).1[b]?) ∧
    (ra.2 ≠ rb.2 → (internAll reqs []).1[a]? ≠ (internAll reqs []).1[b]?) := by
  obtain ⟨hnd, -, hidx⟩ := internAll_spec reqs [] List.nodup_nil
  obtain ⟨ia, hia, hpa⟩ := hidx a ra hra
  obtain ⟨ib, hib, hpb⟩ := hidx b rb hrb
  constructor
  · rintro rfl
    rw [hia, hib]
    have hij : ia = ib :=
      List.getElem?_inj (getElem?_some_lt _ _ _ hpa) hnd (hpa.trans hpb.symm)
    rw [hij]
  · intro hne heq
    rw [hia, hib] at heq
    obtain rfl : ia = ib := by simpa using heq
    have hmk : Ty.mk ra.1 ra.2 = Ty.mk rb.1 rb.2 := by
      simpa using hpa.symm.trans hpb
    exact hne (congrArg Ty.dims hmk)

/-- Witness for C3 at a concrete request trace: positions 0 and 2
(equal kind and shape) receive the same identity; positions 0 and 3
(shapes `[2]` vs `[3]`) receive different identities. -/
theorem C3_type_interning_canonical_witness :
    ((internAll exampleReqs []).1[0]? = (internAll exampleReqs []).1[2]?) ∧
    ((internAll exampleReqs []).1[0]? ≠ (internAll exampleReqs []).1[3]?) :=
  ⟨(C3_type_interning_canonical exampleReqs 0 2
      (ElemKind.FloatTy, [2]) (ElemKind.FloatTy, [2])
      (by decide) (by decide)).1 rfl,
   (C3_type_interning_canonical exampleReqs 0 3
      (ElemKind.FloatTy, [2]) (ElemKind.FloatTy, [3])
      (by decide) (by decide)).2 (by decide)⟩

/-- C2: for every input of shape `(n, h, w, c)` with `h ≥ kernel` and
`w ≥ kernel` (and `stride > 0`, outside of which the source's integer
division is undefined), `createConvOp` succeeds and emits a
`ConvolutionInst` whose output buffer has shape
`[n, (h + 2·pad − kernel)/stride + 1, (w + 2·pad − kernel)/stride + 1,
depth]`, together with a `Weight` filter buffer of shape
`[depth, kernel, kernel, c]` initialized `Xavier` with fan-in
`kernel·kernel·c` and a `Weight` bias buffer of shape `[depth]`
initialized `Broadcast(0.1)`. -/
theorem C2_convolution_shapes (s : BuilderState) (input : Value)
    (n h w c depth kernel stride pad : Nat)
    (hdims : input.dims = [n, h, w, c])
    (hk1 : kernel ≤ h) (hk2 : kernel ≤ w) (_hs : 0 < stride) :
    createConvOp s input depth kernel stride pad =
      (let outH := (h + 2 * pad - kernel) / stride + 1
       let outW := (w + 2 * pad - kernel) / stride + 1
       let filterV : StaticVariable :=
         ⟨⟨ElemKind.FloatTy, [depth, kernel, kernel, c]⟩, InitKind.Xavier,
          ShareKind.Weight, ((kernel * kernel * c : Nat) : Rat), some "filter"⟩
       let biasV : StaticVariable :=
         ⟨⟨ElemKind.FloatTy, [depth]⟩, InitKind.Broadcast,
          ShareKind.Weight, 1 / 10, some "bias"⟩
       let destV : StaticVariable :=
         ⟨⟨ElemKind.FloatTy, [n, outH, outW, depth]⟩, InitKind.Ext,
          ShareKind.Activation, 0, some ""⟩
       let A := Instruction.convolution destV.toVal input filterV.toVal
         biasV.toVal kernel stride pad depth
       some (A, ((((s.pushVar filterV).pushVar biasV).pushVar
         destV)).pushInstr A)) := by
  unfold createConvOp
  rw [hdims]
  simp [shapeNHWC, hk1, hk2, calculateOutputDims, createStaticVariable,
    createStaticVariableD, createConvolutionInst, StaticVariable.toVal]

/-- Witness for C2: input `(1,32,32,3)`, `kernel = 5`, `stride = 1`,
`pad = 2`, `depth = 16` gives output `(1,32,32,16)`, filter
`(16,5,5,3)` and bias `(16)`. -/
theorem C2_convolution_shapes_witness :
    createConvOp ⟨[], []⟩ ⟨⟨ElemKind.FloatTy, [1, 32, 32, 3]⟩⟩ 16 5 1 2 =
      some (Instruction.convolution ⟨⟨ElemKind.FloatTy, [1, 32, 32, 16]⟩⟩
          ⟨⟨ElemKind.FloatTy, [1, 32, 32, 3]⟩⟩
          ⟨⟨ElemKind.FloatTy, [16, 5, 5, 3]⟩⟩
          ⟨⟨ElemKind.FloatTy, [16]⟩⟩ 5 1 2 16,
        ⟨[⟨⟨ElemKind.FloatTy, [16, 5, 5, 3]⟩, InitKind.Xavier,
            ShareKind.Weight, ((75 : Nat) : Rat), some "filter"⟩,
          ⟨⟨ElemKind.FloatTy, [16]⟩, InitKind.Broadcast,
            ShareKind.Weight, 1 / 10, some "bias"⟩,
          ⟨⟨ElemKind.FloatTy, [1, 32, 32, 16]⟩, InitKind.Ext,
            ShareKind.Activation, 0, some ""⟩],
         [Instruction.convolution ⟨⟨ElemKind.FloatTy, [1, 32, 32, 16]⟩⟩
            ⟨⟨ElemKind.FloatTy, [1, 32, 32, 3]⟩⟩
            ⟨⟨ElemKind.FloatTy, [16, 5, 5, 3]⟩⟩
            ⟨⟨ElemKind.FloatTy, [16]⟩⟩ 5 1 2 16]⟩) := by
  rw [C2_convolution_shapes ⟨[], []⟩ ⟨⟨ElemKind.FloatTy, [1, 32, 32, 3]⟩⟩
    1 32 32 3 16 5 1 2 rfl (by decide) (by decide) (by decide)]
  rfl

/-- C8: for every input of shape `(n, h, w, c)` with `h ≥ kernel` and
`w ≥ kernel` (and `stride > 0`), `createPoolOp` emits a `PoolInst`
whose output buffer has shape `[n, outH, outW, c]` by the convolution
output-size formula with the channel count preserved; for `Max` it also
allocates an index-typed coordinate buffer of shape
`[n, outH, outW, c, 2]`, while for `Avg` the auxiliary buffer has the
empty shape. -/
theorem C8_pooling_shapes (s : BuilderState) (input : Value)
    (n h w c kernel stride pad : Nat)
    (hdims : input.dims = [n, h, w, c])
    (hk1 : kernel ≤ h) (hk2 : kernel ≤ w) (_hs : 0 < stride) :
    (let outH := (h + 2 * pad - kernel) / stride + 1
     let outW := (w + 2 * pad - kernel) / stride + 1
     let destV : StaticVariable :=
       ⟨⟨ElemKind.FloatTy, [n, outH, outW, c]⟩, InitKind.Ext,
        ShareKind.Activation, 0, some ""⟩
     (let xyV : StaticVariable :=
        ⟨⟨ElemKind.IndexTy, [n, outH, outW, c, 2]⟩, InitKind.Ext,
         ShareKind.Activation, 0, some "srcXY"⟩
      let A := Instruction.pool destV.toVal input xyV.toVal PoolOpKind.Max
        kernel stride pad
      createPoolOp s input PoolOpKind.Max kernel stride pad =
        some (A, ((s.pushVar xyV).pushVar destV).pushInstr A)) ∧
     (let xyV : StaticVariable :=
        ⟨⟨ElemKind.IndexTy, []⟩, InitKind.Ext,
         ShareKind.Activation, 0, some "srcXY"⟩
      let A := Instruction.pool destV.toVal input xyV.toVal PoolOpKind.Avg
        kernel stride pad
      createPoolOp s input PoolOpKind.Avg kernel stride pad =
        some (A, ((s.pushVar xyV).pushVar destV).pushInstr A))) := by
  refine ⟨?_, ?_⟩ <;>
  · unfold createPoolOp
    rw [hdims]
    simp [shapeNHWC, hk1, hk2, calculateOutputDims, createStaticVariable,
      createStaticVariableD, createPoolInst, StaticVariable.toVal]

/-- Witness for C8: `Max` pooling of input `(1,16,16,8)` with
`kernel = 2`, `stride = 2`, `pad = 0` gives output `(1,8,8,8)` and an
auxiliary index-typed coordinate buffer of shape `(1,8,8,8,2)`. -/
theorem C8_pooling_shapes_witness :
    createPoolOp ⟨[], []⟩ ⟨⟨ElemKind.FloatTy, [1, 16, 16, 8]⟩⟩
        PoolOpKind.Max 2 2 0 =
      some (Instruction.pool ⟨⟨ElemKind.FloatTy, [1, 8, 8, 8]⟩⟩
          ⟨⟨ElemKind.FloatTy, [1, 16, 16, 8]⟩⟩
          ⟨⟨ElemKind.IndexTy, [1, 8, 8, 8, 2]⟩⟩ PoolOpKind.Max 2 2 0,
        ⟨[⟨⟨ElemKind.IndexTy, [1, 8, 8, 8, 2]⟩, InitKind.Ext,
            ShareKind.Activation, 0, some "srcXY"⟩,
          ⟨⟨ElemKind.FloatTy, [1, 8, 8, 8]⟩, InitKind.Ext,
            ShareKind.Activation, 0, some ""⟩],
         [Instruction.pool ⟨⟨ElemKind.FloatTy, [1, 8, 8, 8]⟩⟩
            ⟨⟨ElemKind.FloatTy, [1, 16, 16, 8]⟩⟩
            ⟨⟨ElemKind.IndexTy, [1, 8, 8, 8, 2]⟩⟩ PoolOpKind.Max 2 2 0]⟩) := by
  rw [(C8_pooling_shapes ⟨[], []⟩ ⟨⟨ElemKind.FloatTy, [1, 16, 16, 8]⟩⟩
    1 16 16 8 2 2 0 rfl (by decide) (by decide) (by decide)).1]
  rfl

/-- C4: a `ReshapeInst` passes `verify()` exactly when the total
element count (product of extents) of the output's shape equals that of
the input's shape; `createReshapeOp` itself performs no such check — it
unconditionally emits the instruction into the module, and the emitted
instruction verifies exactly when the requested shape's product matches
the input's. -/
theorem C4_reshape_verify_iff_same_size :
    (∀ (dest src : Value) (dims : List Nat),
      ((Instruction.reshape dest src dims).verify = true ↔
        dest.ty.size = src.ty.size)) ∧
    (∀ (s : BuilderState) (input : Value) (shape : List Nat),
      (createReshapeOp s input shape).2.instrs =
        s.instrs ++ [(createReshapeOp s input shape).1] ∧
      ((createReshapeOp s input shape).1.verify = true ↔
        shape.prod = input.ty.dims.prod)) := by
  constructor
  · intro dest src dims
    simp [Instruction.verify]
  · intro s input shape
    constructor
    · rfl
    · simp [createReshapeOp, createStaticVariableD, createStaticVariable,
        createReshapeInst, Instruction.verify, Ty.size,
        StaticVariable.toVal]

/-- C10: the `TypeRef` overload of `createStaticVariable` discards its
name argument — the buffer it pushes into the module is unnamed — while
the element-kind/dims overload does set the supplied name; in
particular the SoftMax operator's internal "expected" buffer (and its
output buffer), both created through the `TypeRef` overload, are left
unnamed. -/
theorem C10_typeref_overload_ignores_name :
    (∀ (s : BuilderState) (T : Ty) (nm : String) (ik : InitKind)
        (sk : ShareKind) (v : Rat),
      (createStaticVariableT s T nm ik sk v).1.name = none ∧
      (createStaticVariableT s T nm ik sk v).2.vars =
        s.vars ++ [⟨T, ik, sk, v, none⟩]) ∧
    (∀ (s : BuilderState) (k : ElemKind) (dims : List Nat) (nm : String)
        (ik : InitKind) (sk : ShareKind) (v : Rat),
      (createStaticVariable s k dims nm ik sk v).1.name = some nm) ∧
    (∀ (s : BuilderState) (input selected : Value),
      (createSoftMaxOp s input selected).2.vars =
        s.vars ++
          [⟨input.ty, InitKind.Ext, ShareKind.Activation, 0, none⟩,
           ⟨input.ty, InitKind.Ext, ShareKind.Activation, 0, none⟩]) := by
  refine ⟨fun s T nm ik sk v => ⟨rfl, rfl⟩, fun s k dims nm ik sk v => rfl,
    fun s input selected => ?_⟩
  simp [createSoftMaxOp, createStaticVariableTD, createStaticVariableT,
    createSoftMaxInst, BuilderState.pushVar, BuilderState.pushInstr]

/-- C7 counterexample: `createConcatInst` performs no arity check, and
a `ConcatInst` carrying exactly one source operand (fewer than 2) is
accepted into the module and passes `verify()` — refuting the claim
that construction enforces a ≥ 2 arity and that verification rejects
every Concat with fewer than 2 source operands. -/
theorem C7_concat_arity_counterexample :
    (createConcatInst ⟨[], []⟩ ⟨⟨ElemKind.FloatTy, [2]⟩⟩
        [⟨⟨ElemKind.FloatTy, [2]⟩⟩] 0).2.instrs =
      [Instruction.concat ⟨⟨ElemKind.FloatTy, [2]⟩⟩
        [⟨⟨ElemKind.FloatTy, [2]⟩⟩] 0] ∧
    (Instruction.concat ⟨⟨ElemKind.FloatTy, [2]⟩⟩
        [⟨⟨ElemKind.FloatTy, [2]⟩⟩] 0).verify = true := by
  constructor
  · rfl
  · decide

/-- C7 amended: the low-level `createConcatInst` enforces nothing (it
unconditionally appends the instruction), and `ConcatInst::verify`
only requires the total operand count to exceed 1, i.e. at least one
source operand: a Concat with zero source operands always fails
verification, while one with a single source operand passes exactly
when the stacking dimension is in range and the output shape equals the
input's shape with that dimension multiplied by 1. -/
theorem C7_concat_arity_amended :
    (∀ (s : BuilderState) (dest : Value) (srcs : List Value) (dim : Nat),
      (createConcatInst s dest srcs dim).1 =
        Instruction.concat dest srcs dim ∧
      (createConcatInst s dest srcs dim).2.instrs =
        s.instrs ++ [Instruction.concat dest srcs dim]) ∧
    (∀ (dest : Value) (dim : Nat),
      (Instruction.concat dest [] dim).verify = false) ∧
    (∀ (dest s0 : Value) (dim : Nat),
      ((Instruction.concat dest [s0] dim).verify = true ↔
        (dim < s0.dims.length ∧ dest.dims = mulAt s0.dims dim 1))) := by
  refine ⟨fun s dest srcs dim => ⟨rfl, rfl⟩, fun dest dim => rfl,
    fun dest s0 dim => ?_⟩
  simp [Instruction.verify, and_comm]

/-! ### Properties of `lookupAll` and `shuffleDims` -/

theorem lookupAll_eq_some (dims js : List Nat)
    (h : ∀ j ∈ js, j < dims.length) :
    lookupAll dims js = some (js.map fun j => dims.getD j 0) := by
  induction js with
  | nil => rfl
  | cons j t ih =>
    have hj : j < dims.length := h j (by simp)
    have ht := ih fun x hx => h x (by simp [hx])
    simp [lookupAll, ht, List.getElem?_eq_getElem hj,
      List.getD_eq_getElem dims 0 hj]

theorem lookupAll_some_bounds (dims js out : List Nat)
    (h : lookupAll dims js = some out) : ∀ j ∈ js, j < dims.length := by
  induction js generalizing out with
  | nil => simp
  | cons j t ih =>
    intro x hx
    simp only [lookupAll] at h
    cases hd : dims[j]? with
    | none => rw [hd] at h; simp at h
    | some d =>
      rw [hd] at h
      cases ht : lookupAll dims t with
      | none => rw [ht] at h; simp at h
      | some rest =>
        rcases List.mem_cons.mp hx with rfl | hx2
        · exact getElem?_some_lt _ _ _ hd
        · exact ih rest ht x hx2

theorem shuffleDims_eq_some (dims shuffle : List Nat)
    (hlen : dims.length ≤ shuffle.length)
    (hran : ∀ j ∈ shuffle.take dims.length, j < dims.length) :
    shuffleDims dims shuffle =
      some ((shuffle.take dims.length).map fun j => dims.getD j 0) := by
  unfold shuffleDims
  rw [if_neg (by omega)]
  exact lookupAll_eq_some _ _ hran

theorem shuffleDims_isSome_iff (dims shuffle : List Nat) :
    (shuffleDims dims shuffle).isSome = true ↔
      (dims.length ≤ shuffle.length ∧
       ∀ j ∈ shuffle.take dims.length, j < dims.length) := by
  constructor
  · intro h
    unfold shuffleDims at h
    by_cases hl : shuffle.length < dims.length
    · rw [if_pos hl] at h; simp at h
    · rw [if_neg hl] at h
      cases hs : lookupAll dims (shuffle.take dims.length) with
      | none => rw [hs] at h; simp at h
      | some out => exact ⟨by omega, lookupAll_some_bounds _ _ out hs⟩
  · rintro ⟨h1, h2⟩
    rw [shuffleDims_eq_some dims shuffle h1 h2]
    rfl

/-- When the index list has exactly the length of `dims` and all its
entries are in range, every position of the shuffled shape is the
`dims` entry selected by the corresponding index. -/
theorem shuffleDims_full (dims shuffle : List Nat)
    (hlen : shuffle.length = dims.length)
    (hmem : ∀ i, i < dims.length → shuffle.getD i 0 < dims.length) :
    shuffleDims dims shuffle =
      some (shuffle.map fun j => dims.getD j 0) := by
  have htake : shuffle.take dims.length = shuffle := by
    rw [← hlen]
    exact List.take_length shuffle
  have hb : ∀ j ∈ shuffle.take dims.length, j < dims.length := by
    rw [htake]
    intro j hj
    obtain ⟨i, hi, hij⟩ := List.getElem_of_mem hj
    have : shuffle.getD i 0 = j := by
      rw [List.getD_eq_getElem shuffle 0 hi, hij]
    rw [← this]
    exact hmem i (by omega)
  rw [shuffleDims_eq_some dims shuffle (by omega) hb, htake]

/-- C9 counterexample: a Transpose whose permutation length (2)
differs from the input rank (1) is NOT fatal: `createTransposeOp` on
input shape `[5]` with shuffle `[0, 0]` succeeds, appends the
instruction to the module, and the instruction even passes `verify()`
— the extra trailing entry is silently ignored, refuting the claim
that any length mismatch is an unconditional abort never accepted into
the module. -/
theorem C9_transpose_length_counterexample :
    (createTransposeOp ⟨[], []⟩ ⟨⟨ElemKind.FloatTy, [5]⟩⟩ [0, 0]).map
        (fun p => (p.1, p.2.instrs, p.1.verify)) =
      some (Instruction.transpose ⟨⟨ElemKind.FloatTy, [5]⟩⟩
          ⟨⟨ElemKind.FloatTy, [5]⟩⟩ [0, 0],
        [Instruction.transpose ⟨⟨ElemKind.FloatTy, [5]⟩⟩
          ⟨⟨ElemKind.FloatTy, [5]⟩⟩ [0, 0]], true) := by
  decide

/-- C9 amended: `createTransposeOp` aborts graph construction (the
`ArrayRef` bounds assertions) exactly when the permutation is shorter
than the input rank or one of its first `rank` entries is out of
range; a permutation at least as long as the rank whose first `rank`
entries are in range — in particular one strictly longer than the rank
— is accepted, never aborted. -/
theorem C9_transpose_precondition_amended (s : BuilderState)
    (input : Value) (shuffle : List Nat) :
    (createTransposeOp s input shuffle).isSome = true ↔
      (input.dims.length ≤ shuffle.length ∧
       ∀ j ∈ shuffle.take input.dims.length, j < input.dims.length) := by
  rw [← shuffleDims_isSome_iff input.dims shuffle]
  unfold createTransposeOp
  cases h : shuffleDims input.dims shuffle with
  | none => simp [h]
  | some out => simp [h]

/-- Witness for C9's amended theorem: a rank-2 input with the valid
permutation `[1, 0]` is accepted. -/
theorem C9_transpose_precondition_amended_witness :
    (createTransposeOp ⟨[], []⟩ ⟨⟨ElemKind.FloatTy, [3, 7]⟩⟩
        [1, 0]).isSome = true :=
  (C9_transpose_precondition_amended ⟨[], []⟩
    ⟨⟨ElemKind.FloatTy, [3, 7]⟩⟩ [1, 0]).mpr (by decide)

/-- The result of `createTransposeOp` when the shuffling loop
succeeds: the output buffer takes the shuffled shape. -/
theorem createTransposeOp_eq (s : BuilderState) (input : Value)
    (shuffle out : List Nat)
    (h : shuffleDims input.dims shuffle = some out) :
    createTransposeOp s input shuffle =
      some (Instruction.transpose ⟨⟨input.getElementType, out⟩⟩ input
          shuffle,
        (s.pushVar ⟨⟨input.getElementType, out⟩, InitKind.Ext,
            ShareKind.Activation, 0, some ""⟩).pushInstr
          (Instruction.transpose ⟨⟨input.getElementType, out⟩⟩ input
            shuffle)) := by
  unfold createTransposeOp
  rw [h]
  rfl

/-- C5: for an input of rank `r` and a permutation `perm` of
`{0..r−1}` (with inverse `permInv`), `createTransposeOp` succeeds and
the emitted instruction's output shape satisfies
`shape[i] = input shape[perm[i]]` for every axis `i`; applying
Transpose again with the inverse permutation recovers the original
shape. -/
theorem C5_transpose_shape_and_roundtrip (s : BuilderState)
    (input : Value) (perm permInv : List Nat)
    (hlen : perm.length = input.dims.length)
    (hmem : ∀ i, i < input.dims.length →
      perm.getD i 0 < input.dims.length)
    (hinvlen : permInv.length = input.dims.length)
    (hinvmem : ∀ i, i < input.dims.length →
      permInv.getD i 0 < input.dims.length)
    (hinv : ∀ i, i < input.dims.length →
      perm.getD (permInv.getD i 0) 0 = i) :
    ∃ i1 s1, createTransposeOp s input perm = some (i1, s1) ∧
      i1.dest.dims.length = input.dims.length ∧
      (∀ i, i < input.dims.length →
        i1.dest.dims[i]? = input.dims[perm.getD i 0]?) ∧
      ∃ i2 s2, createTransposeOp s1 i1.dest permInv = some (i2, s2) ∧
        i2.dest.dims = input.dims := by
  have h1 := shuffleDims_full input.dims perm hlen hmem
  have hlen_out : (perm.map fun j => input.dims.getD j 0).length =
      input.dims.length := by simpa using hlen
  refine ⟨_, _, createTransposeOp_eq s input perm _ h1, ?_, ?_, ?_⟩
  · simpa [Instruction.dest, Value.dims] using hlen
  · intro i hi
    show (perm.map fun j => input.dims.getD j 0)[i]? =
      input.dims[perm.getD i 0]?
    have hpi : i < perm.length := by omega
    rw [List.getElem?_map, List.getElem?_eq_getElem hpi]
    have hj : perm.getD i 0 = perm[i] := List.getD_eq_getElem perm 0 hpi
    have hb : perm[i] < input.dims.length := by
      have := hmem i hi
      rwa [hj] at this
    rw [hj, List.getElem?_eq_getElem hb]
    simp [List.getD_eq_getElem input.dims 0 hb,
      List.getElem?_eq_getElem hb]
  · have h2 : shuffleDims (perm.map fun j => input.dims.getD j 0) permInv =
        some (permInv.map fun j =>
          (perm.map fun j0 => input.dims.getD j0 0).getD j 0) := by
      refine shuffleDims_full _ permInv (by omega) ?_
      intro i hi
      rw [hlen_out] at hi ⊢
      exact hinvmem i hi
    refine ⟨_, _, createTransposeOp_eq _ _ permInv _ h2, ?_⟩
    show (permInv.map fun j =>
      (perm.map fun j0 => input.dims.getD j0 0).getD j 0) = input.dims
    apply List.ext_getElem (by simpa using hinvlen)
    intro i hi1 hi2
    have hir : i < input.dims.length := hi2
    have hii : i < permInv.length := by simpa using hi1
    rw [List.getElem_map]
    have hjr : permInv.getD i 0 = permInv[i] :=
      List.getD_eq_getElem permInv 0 hii
    have hjlt : permInv[i] < input.dims.length := by
      have := hinvmem i hir
      rwa [hjr] at this
    have hjlt2 : permInv[i] < perm.length := by omega
    have hstep1 : (perm.map fun j0 => input.dims.getD j0 0).getD
        (permInv[i]) 0 = input.dims.getD (perm[permInv[i]]) 0 := by
      rw [List.getD_eq_getElem _ 0 (by simpa using hjlt2),
        List.getElem_map]
    rw [hstep1]
    have hstep2 : perm[permInv[i]] = i := by
      have := hinv i hir
      rwa [hjr, List.getD_eq_getElem perm 0 hjlt2] at this
    rw [hstep2, List.getD_eq_getElem input.dims 0 hir]

/-- Witness for C5: transposing shape `[2,3,4]` with `[2,0,1]` and
then with the inverse `[1,2,0]` recovers `[2,3,4]`. -/
theorem C5_transpose_shape_and_roundtrip_witness :
    ((createTransposeOp ⟨[], []⟩ ⟨⟨ElemKind.FloatTy, [2, 3, 4]⟩⟩
        [2, 0, 1]).bind fun p =>
      createTransposeOp p.2 p.1.dest [1, 2, 0]).map
        (fun p => p.1.dest.dims) = some [2, 3, 4] := by
  obtain ⟨i1, s1, h1, -, -, i2, s2, h2, h3⟩ :=
    C5_transpose_shape_and_roundtrip ⟨[], []⟩
      ⟨⟨ElemKind.FloatTy, [2, 3, 4]⟩⟩ [2, 0, 1] [1, 2, 0]
      (by decide) (by decide) (by decide) (by decide) (by decide)
  simp only [Value.dims] at h3
  simp [h1, h2, h3, Value.dims]

/-! ### Properties of `mulAt` -/

theorem mulAt_getElem?_same (l : List Nat) (k n : Nat)
    (hk : k < l.length) :
    (mulAt l k n)[k]? = (l[k]?).map (· * n) := by
  induction l generalizing k with
  | nil => simp at hk
  | cons x xs ih =>
    cases k with
    | zero => simp [mulAt]
    | succ m => simpa [mulAt] using ih m (by simpa using hk)

theorem mulAt_getElem?_ne (l : List Nat) (k n j : Nat) (hj : j ≠ k) :
    (mulAt l k n)[j]? = l[j]? := by
  induction l generalizing k j with
  | nil => simp [mulAt]
  | cons x xs ih =>
    cases k with
    | zero =>
      cases j with
      | zero => omega
      | succ jm => simp [mulAt]
    | succ m =>
      cases j with
      | zero => simp [mulAt]
      | succ jm => simpa [mulAt] using ih m jm (by omega)

/-- C6: for a non-empty list of inputs all sharing the shape `S` and a
stacking axis `k < rank`, `createConcatOp` succeeds; the emitted
instruction's output shape equals `S` except that dimension `k` is
multiplied by the number of inputs, and the instruction passes
`verify()` (verification recomputes the same stacked shape). -/
theorem C6_concat_shapes (s : BuilderState) (inputs : List Value)
    (S : List Nat) (k : Nat)
    (hne : inputs ≠ [])
    (hS : ∀ v ∈ inputs, v.dims = S)
    (hk : k < S.length) :
    ∃ i st, createConcatOp s inputs k = some (i, st) ∧
      i.dest.dims = mulAt S k inputs.length ∧
      i.dest.dims[k]? = (S[k]?).map (· * inputs.length) ∧
      (∀ j, j ≠ k → i.dest.dims[j]? = S[j]?) ∧
      i.verify = true := by
  cases inputs with
  | nil => exact absurd rfl hne
  | cons i0 rest =>
    have h0 : i0.dims = S := hS i0 (by simp)
    have hrest : ∀ v ∈ rest, v.dims = i0.dims := fun v hv =>
      (hS v (by simp [hv])).trans h0.symm
    simp only [createConcatOp]
    rw [if_pos ⟨hrest, by rw [h0]; exact hk⟩]
    refine ⟨_, _, rfl, ?_, ?_, ?_, ?_⟩
    · show mulAt i0.dims k (i0 :: rest).length = mulAt S k (i0 :: rest).length
      rw [h0]
    · show (mulAt i0.dims k (i0 :: rest).length)[k]? =
        (S[k]?).map (· * (i0 :: rest).length)
      rw [h0]
      exact mulAt_getElem?_same S k _ hk
    · intro j hj
      show (mulAt i0.dims k (i0 :: rest).length)[j]? = S[j]?
      rw [h0]
      exact mulAt_getElem?_ne S k _ j hj
    · show (Instruction.concat
        ⟨⟨i0.getElementType, mulAt i0.dims k (i0 :: rest).length⟩⟩
        (i0 :: rest) k).verify = true
      simp only [Instruction.verify]
      rw [List.all_eq_true.mpr (fun v hv => by simp [hrest v hv])]
      have hkk : k < i0.dims.length := by rw [h0]; exact hk
      simp only [Value.dims] at hkk
      simp [hkk, Value.dims]

/-- Witness for C6: three inputs of shape `(2,4,4,6)` stacked on axis 3
give output shape `(2,4,4,18)`, and the instruction verifies. -/
theorem C6_concat_shapes_witness :
    (createConcatOp ⟨[], []⟩
        [⟨⟨ElemKind.FloatTy, [2, 4, 4, 6]⟩⟩, ⟨⟨ElemKind.FloatTy, [2, 4, 4, 6]⟩⟩,
         ⟨⟨ElemKind.FloatTy, [2, 4, 4, 6]⟩⟩] 3).map
      (fun p => (p.1.dest.dims, p.1.verify)) = some ([2, 4, 4, 18], true) := by
  obtain ⟨i, st, h1, h2, -, -, h4⟩ :=
    C6_concat_shapes ⟨[], []⟩
      [⟨⟨ElemKind.FloatTy, [2, 4, 4, 6]⟩⟩, ⟨⟨ElemKind.FloatTy, [2, 4, 4, 6]⟩⟩,
       ⟨⟨ElemKind.FloatTy, [2, 4, 4, 6]⟩⟩] [2, 4, 4, 6] 3
      (by decide) (by decide) (by decide)
  rw [h1]
  simp [h2, h4]
  decide

/-- C1 counterexample: two high-level constructors whose own
preconditions hold emit instructions that fail `verify()`.
`createReshapeOp` has no precondition at all, yet reshaping a shape
`[2]` input to `[3]` emits an instruction whose verification fails
(element counts differ); `createArithmeticOp` only requires equal
operand shapes, yet adding a Float `[2]` to an Index `[2]` emits an
instruction whose verification fails (`checkSameType` compares whole
types, not just shapes). -/
theorem C1_construction_verify_counterexample :
    ((runOp ⟨[], []⟩ (OpCall.reshape ⟨⟨ElemKind.FloatTy, [2]⟩⟩ [3])).map
        (fun p => p.1.verify) = some false) ∧
    ((runOp ⟨[], []⟩ (OpCall.arithmetic ⟨⟨ElemKind.FloatTy, [2]⟩⟩
        ⟨⟨ElemKind.IndexTy, [2]⟩⟩ ArithOpKind.Add)).map
        (fun p => p.1.verify) = some false) := by
  exact ⟨rfl, rfl⟩

/-- C1 (amended): for every high-level operator constructor, whenever
the constructor's own preconditions hold — and additionally, for
Reshape, the requested shape preserves the element count, and, for
Arithmetic, the operands share an element kind — the instruction it
emits passes `verify()` immediately after construction. -/
theorem C1_construction_implies_verify_amended (s : BuilderState)
    (c : OpCall) (i : Instruction) (s2 : BuilderState)
    (h : runOp s c = some (i, s2)) (hx : extraOk c = true) :
    i.verify = true := by
  cases c with
  | conv input depth kernel stride pad =>
    simp only [runOp] at h
    unfold createConvOp at h
    split at h
    · exact Option.noConfusion h
    next idim hs =>
      split at h
      next hcond =>
        simp [createStaticVariable, createStaticVariableD,
          createConvolutionInst, StaticVariable.toVal] at h
        obtain ⟨rfl, -⟩ := h
        simp only [Value.dims] at hs
        simp [Instruction.verify, Value.dims, shapeNHWC_cons4, hs,
          hcond.1, hcond.2]
      next hcond => exact Option.noConfusion h
  | pool input kind kernel stride pad =>
    simp only [runOp] at h
    unfold createPoolOp at h
    split at h
    · exact Option.noConfusion h
    next idim hs =>
      split at h
      next hcond =>
        cases kind with
        | Max =>
          simp [createStaticVariable, createStaticVariableD,
            createPoolInst, StaticVariable.toVal] at h
          obtain ⟨rfl, -⟩ := h
          simp only [Value.dims] at hs
          simp [Instruction.verify, Value.dims, shapeNHWC_cons4, hs,
            hcond.1, hcond.2]
        | Avg =>
          simp [createStaticVariable, createStaticVariableD,
            createPoolInst, StaticVariable.toVal] at h
          obtain ⟨rfl, -⟩ := h
          simp only [Value.dims] at hs
          simp [Instruction.verify, Value.dims, shapeNHWC_cons4, hs,
            hcond.1, hcond.2]
      next hcond => exact Option.noConfusion h
  | fullyConnected input outDepth =>
    simp only [runOp] at h
    unfold createFullyConnectedOp at h
    split at h
    · exact Option.noConfusion h
    next d0 drest hd =>
      simp [createStaticVariable, createStaticVariableD,
        createFullyConnectedInst, StaticVariable.toVal] at h
      obtain ⟨rfl, -⟩ := h
      simp only [Value.dims] at hd
      simp [Instruction.verify, Value.dims, hd, flattenCdr]
  | relu input =>
    simp only [runOp, createRELUOp, createStaticVariableTD,
      createStaticVariableT, createReluInst] at h
    simp at h
    obtain ⟨rfl, -⟩ := h
    simp [Instruction.verify, checkSameType, StaticVariable.toVal]
  | sigmoid input =>
    simp only [runOp, createSigmoidOp, createStaticVariableTD,
      createStaticVariableT, createSigmoidInst] at h
    simp at h
    obtain ⟨rfl, -⟩ := h
    simp [Instruction.verify, checkSameType, StaticVariable.toVal]
  | tanh input =>
    simp only [runOp, createTanhOp, createStaticVariableTD,
      createStaticVariableT, createTanhInst] at h
    simp at h
    obtain ⟨rfl, -⟩ := h
    simp [Instruction.verify, checkSameType, StaticVariable.toVal]
  | softMax input selected =>
    simp only [runOp, createSoftMaxOp, createStaticVariableTD,
      createStaticVariableT, createSoftMaxInst] at h
    simp at h
    obtain ⟨rfl, -⟩ := h
    simp [Instruction.verify, checkSameType, StaticVariable.toVal]
  | regression input expected =>
    simp only [runOp, createRegressionOp, createStaticVariableTD,
      createStaticVariableT, createRegressionInst] at h
    simp at h
    obtain ⟨rfl, -⟩ := h
    simp [Instruction.verify, checkSameType, StaticVariable.toVal]
  | reshape input shape =>
    simp only [extraOk, decide_eq_true_eq] at hx
    simp only [runOp, createReshapeOp, createStaticVariableD,
      createStaticVariable, createReshapeInst] at h
    simp at h
    obtain ⟨rfl, -⟩ := h
    simp [Instruction.verify, Ty.size, StaticVariable.toVal, hx]
  | transpose input shuffle =>
    simp only [runOp] at h
    cases hsh : shuffleDims input.dims shuffle with
    | none =>
      unfold createTransposeOp at h
      rw [hsh] at h
      simp at h
    | some out =>
      rw [createTransposeOp_eq s input shuffle out hsh] at h
      simp at h
      obtain ⟨rfl, -⟩ := h
      simp only [Value.dims] at hsh
      simp [Instruction.verify, Value.dims, hsh]
  | concat inputs dimension =>
    simp only [runOp] at h
    cases inputs with
    | nil => unfold createConcatOp at h; exact Option.noConfusion h
    | cons i0 rest =>
      simp only [createConcatOp] at h
      by_cases hcond : (∀ v ∈ rest, v.dims = i0.dims) ∧
          dimension < i0.dims.length
      · rw [if_pos hcond] at h
        simp [createStaticVariable, createStaticVariableD,
          createConcatInst, StaticVariable.toVal] at h
        obtain ⟨rfl, -⟩ := h
        simp only [Instruction.verify]
        rw [List.all_eq_true.mpr (fun v hv => by simp [hcond.1 v hv])]
        have hkk : dimension < i0.ty.dims.length := hcond.2
        simp [hkk, Value.dims]
      · rw [if_neg hcond] at h; exact Option.noConfusion h
  | batchNormalization input channelIdx epsilon momentum =>
    simp only [runOp] at h
    unfold createBatchNormalizationOp at h
    split at h
    · exact Option.noConfusion h
    next channels hc =>
      simp [createStaticVariable, createStaticVariableD,
        createStaticVariableTD, createStaticVariableT,
        createBatchNormalizationInst, StaticVariable.toVal] at h
      obtain ⟨rfl, -⟩ := h
      simp only [Value.dims] at hc
      simp [Instruction.verify, checkSameType, Value.dims, hc]
  | arithmetic lhs rhs op =>
    simp only [extraOk, decide_eq_true_eq] at hx
    simp only [runOp] at h
    unfold createArithmeticOp at h
    split at h
    next hcond =>
      simp [createStaticVariableTD, createStaticVariableT,
        createArithmeticInst, StaticVariable.toVal] at h
      obtain ⟨rfl, -⟩ := h
      have hty : lhs.ty = rhs.ty := by
        simp only [Value.dims] at hcond
        obtain ⟨⟨k1, d1⟩⟩ := lhs
        obtain ⟨⟨k2, d2⟩⟩ := rhs
        simp_all
      simp [Instruction.verify, checkSameType, hty]
    next hcond => exact Option.noConfusion h

/-- Witness for C1 (amended): the convolution example constructs and
its emitted instruction verifies. -/
theorem C1_construction_implies_verify_amended_witness :
    (runOp ⟨[], []⟩ (OpCall.conv ⟨⟨ElemKind.FloatTy, [1, 32, 32, 3]⟩⟩
        16 5 1 2)).map (fun p => p.1.verify) = some true := by
  cases hh : runOp ⟨[], []⟩
      (OpCall.conv ⟨⟨ElemKind.FloatTy, [1, 32, 32, 3]⟩⟩ 16 5 1 2) with
  | none =>
    simp only [runOp] at hh
    rw [C2_convolution_shapes ⟨[], []⟩
      ⟨⟨ElemKind.FloatTy, [1, 32, 32, 3]⟩⟩ 1 32 32 3 16 5 1 2 rfl
      (by decide) (by decide) (by decide)] at hh
    exact Option.noConfusion hh
  | some p =>
    obtain ⟨i, s2⟩ := p
    have hv := C1_construction_implies_verify_amended ⟨[], []⟩ _ i s2 hh rfl
    simp [hv]

end Glow
